import Mathlib

/-!
Verification development for the js-interpreter-in-rust repository: a shallow
embedding of its scanner (src/src/lexer/lexer.rs), recursive-descent parser
(src/crates/parser/src/parser.rs), runtime values
(src/src/parser/value.rs), environment chain
(src/interpreter/src/environment.rs) and tree-walking evaluator
(src/interpreter/src/interpreter.rs, src/interpreter/src/functions/js_function.rs),
together with theorems checking the specification's claims against it.

Modelling conventions:
 - Rust `f64` numbers are modelled as exact fractions (the claims under study
   touch only small integer arithmetic, never IEEE-specific behaviour);
 - a Rust panic (`panic!`, `unimplemented!`, `todo!`, `.expect(..)`) is an
   explicit error value; possibly diverging loops take a fuel argument and
   answer "out of fuel" when it runs dry, so divergence of the source is
   "out of fuel at every fuel";
 - `Rc<Environment>` sharing with interior mutability is modelled as an arena:
   a store (list) of environment records addressed by index, threaded through
   evaluation; `Rc::clone` is copying an index;
 - printing to stdout and the host natives `clock`/`random` are outside the
   model: `print` evaluates and discards, and invoking a native yields the
   explicit marker `Exc.nativeCall`.
-/

set_option maxHeartbeats 1000000

namespace JsIr

/-- Identifiers (`Ident` in src/crates/parser/src/ident.rs is a newtype over
`String`; the wrapper is dropped). -/
abbrev Ident := String

/-- Binary/unary operator tags, from src/src/parser/operator.rs. -/
inductive Operator
  | plus | minus | asterisk | slash | equal | bang | notEqual
  | logicalAnd | logicalOr | and | or
  | lessThan | lessThanOrEqual | greaterThan | greaterThanOrEqual
  deriving DecidableEq, Repr

mutual
/-- Literal values as stored in the AST (`ParserValue`,
src/crates/parser/src/value.rs). Number literals keep their source text, as
in the Rust enum; `function` is an (optionally named) function literal. -/
inductive ParserValue
  | string (s : String)
  | number (lit : String)
  | bool (b : Bool)
  | null
  | function (ident : Option Ident) (params : List Ident) (body : List Statement)

/-- Expressions (src/crates/parser/src/expression.rs). The constructor
`assignement` keeps the source's spelling. -/
inductive Expression
  | variable (ident : Ident)
  | grouping (inner : Expression)
  | literal (v : ParserValue)
  | assignement (ident : Ident) (value : Expression)
  | unary (operator : Operator) (right : Expression)
  | binary (left : Expression) (operator : Operator) (right : Expression)
  | call (callee : Expression) (arguments : List Expression)

/-- Statements (src/crates/parser/src/statements/statement.rs).
`BlockStatement` (a newtype over `Vec<Statement>`) is inlined as a list. -/
inductive Statement
  | letStmt (ident : Ident) (expression : Option Expression)
  | ifStmt (condition : Expression) (consequence : Statement) (alternative : Option Statement)
  | whileStmt (condition : Expression) (body : Statement)
  | block (statements : List Statement)
  | exprStmt (e : Expression)
  | printStmt (e : Expression)
  | functionStmt (ident : Ident) (parameters : List Ident) (body : List Statement)
  | returnStmt (e : Expression)
end

/-- Exact-fraction model of the `f64` number payload: `num / den`. The
evaluator only ever builds fractions with positive denominator (literals
have a power-of-ten denominator, and the arithmetic below multiplies
denominators), on which the cross-multiplication comparisons agree with
exact rational comparison; IEEE rounding and the special values produced by
f64 division by zero are outside the model. -/
structure FNum where
  num : Int
  den : Int
  deriving DecidableEq, Repr

namespace FNum

/-- The fraction n/1. -/
def ofNat (n : Nat) : FNum := ⟨n, 1⟩

/-- Value equality of fractions by cross-multiplication (`==` on f64). -/
def beq (a b : FNum) : Bool := a.num * b.den = b.num * a.den

/-- Strict less-than by cross-multiplication (`<` on f64). -/
def blt (a b : FNum) : Bool := a.num * b.den < b.num * a.den

/-- Strict greater-than by cross-multiplication (`>` on f64). -/
def bgt (a b : FNum) : Bool := a.num * b.den > b.num * a.den

/-- Addition. -/
def add (a b : FNum) : FNum := ⟨a.num * b.den + b.num * a.den, a.den * b.den⟩

/-- Subtraction. -/
def sub (a b : FNum) : FNum := ⟨a.num * b.den - b.num * a.den, a.den * b.den⟩

/-- Multiplication. -/
def mul (a b : FNum) : FNum := ⟨a.num * b.num, a.den * b.den⟩

/-- Division (exact; f64 division by zero instead yields an IEEE special
value, which no claim exercises). -/
def div (a b : FNum) : FNum := ⟨a.num * b.den, a.den * b.num⟩

/-- Negation. -/
def neg (a : FNum) : FNum := ⟨-a.num, a.den⟩

end FNum

/-- The callable payload of a runtime `Value::Function(Box<dyn Callable>)`:
either a `JsFunction` (src/interpreter/src/functions/js_function.rs: optional
name, parameters, body block, captured closure environment — here the
environment's arena index) or a `NativeFunction`
(src/interpreter/src/functions/native_function.rs: name and declared
argument list; its host implementation is outside the model). -/
inductive FnKind
  | js (name : Option String) (params : List Ident) (body : List Statement) (closure : Nat)
  | native (name : String) (params : List Ident)

/-- Runtime values (`Value`, src/src/parser/value.rs; the interpreter crate's
value module mirrors it with `Number(f64) | String | Bool | Null | Function`).
Numbers are modelled as exact fractions. -/
inductive Value
  | number (n : FNum)
  | str (s : String)
  | bool (b : Bool)
  | null
  | function (f : FnKind)

/-- Arity of a callable (`Callable::arity`): the declared parameter count. -/
def FnKind.arity : FnKind → Nat
  | .js _ params _ _ => params.length
  | .native _ params => params.length

/-! Value operations, transcribed from src/src/parser/value.rs. A partial
operation returns `none` where the Rust method panics (its
`unimplemented!()` or conversion-failure arm). -/

/-- Value::to_number — the numeric payload; any other kind panics. -/
def Value.toNumber : Value → Option FNum
  | .number n => some n
  | _ => none

/-- Value::is_truthy — numbers are truthy unless 0, booleans are themselves,
null is falsy, strings and functions are truthy. -/
def Value.isTruthy : Value → Bool
  | .number n => !(n.beq (.ofNat 0))
  | .bool b => b
  | .null => false
  | _ => true

/-- Value::not — boolean negation of truthiness. -/
def Value.not (v : Value) : Value := .bool (!v.isTruthy)

/-- Value::sum — number addition or string concatenation; otherwise panics. -/
def Value.sum : Value → Value → Option Value
  | .number l, .number r => some (.number (l.add r))
  | .str l, .str r => some (.str (l ++ r))
  | _, _ => none

/-- Value::sub — number subtraction only. -/
def Value.sub : Value → Value → Option Value
  | .number l, .number r => some (.number (l.sub r))
  | _, _ => none

/-- Value::mult — number multiplication only. -/
def Value.mult : Value → Value → Option Value
  | .number l, .number r => some (.number (l.mul r))
  | _, _ => none

/-- Value::div — number division only (exact rational division in the model). -/
def Value.div : Value → Value → Option Value
  | .number l, .number r => some (.number (l.div r))
  | _, _ => none

/-- Value::gt — strict greater-than on number/number or string/string. -/
def Value.gt : Value → Value → Option Value
  | .number l, .number r => some (.bool (l.bgt r))
  | .str l, .str r => some (.bool (decide (l > r)))
  | _, _ => none

/-- Value::lt — strict less-than on number/number or string/string. -/
def Value.lt : Value → Value → Option Value
  | .number l, .number r => some (.bool (l.blt r))
  | .str l, .str r => some (.bool (decide (l < r)))
  | _, _ => none

/-- Value::gte — defined in the source as `self.lt(other).not()`. -/
def Value.gte (l r : Value) : Option Value := (l.lt r).map Value.not

/-- Value::lte — defined in the source as `self.gt(other).not()`. -/
def Value.lte (l r : Value) : Option Value := (l.gt r).map Value.not

/-- Value::eq (src/src/parser/value.rs lines 136-149): same-kind
number/string/bool compare by payload, `(Null, Null)` is true, `(Null, _)`
is false, and every remaining pair falls into the `unimplemented!()`
catch-all (a panic, modelled as `none`). -/
def Value.eq : Value → Value → Option Value
  | .number l, .number r => some (.bool (l.beq r))
  | .str l, .str r => some (.bool (decide (l = r)))
  | .bool l, .bool r => some (.bool (l == r))
  | .null, .null => some (.bool true)
  | .null, _ => some (.bool false)
  | _, _ => none

/-- Value::neq — `self.eq(other).not()`. -/
def Value.neq (l r : Value) : Option Value := (l.eq r).map Value.not

/-- Value::and — truthiness conjunction (both sides already evaluated). -/
def Value.and (l r : Value) : Value := .bool (l.isTruthy && r.isTruthy)

/-- Value::or — truthiness disjunction. -/
def Value.or (l r : Value) : Value := .bool (l.isTruthy || r.isTruthy)

/-- Split a character list at its first dot (helper for number-literal
parsing). -/
def splitFirstDot : List Char → List Char × Option (List Char)
  | [] => ([], none)
  | c :: rest =>
      if c = '.' then ([], some rest)
      else
        let p := splitFirstDot rest
        (c :: p.1, p.2)

/-- Model of `str.parse::<f64>()` as used on number literals
(Interpreter::evaluate, Literal arm), restricted to the digits-and-one-dot
lexemes the scanner's read_number can produce: an optional integer part and
an optional fraction part around one dot, not both empty. Anything else is
`none` (the `.expect` panic). -/
def parseNumberLit (s : String) : Option FNum :=
  let digitVal : List Char → Nat := fun cs =>
    cs.foldl (fun a c => a * 10 + (c.toNat - 48)) 0
  match splitFirstDot s.data with
  | (a, none) =>
      if a ≠ [] ∧ a.all Char.isDigit then some ⟨digitVal a, 1⟩ else none
  | (a, some b) =>
      if (a ≠ [] ∨ b ≠ []) ∧ a.all Char.isDigit ∧ b.all Char.isDigit ∧ ¬ b.contains '.' then
        some ⟨digitVal a * 10 ^ b.length + digitVal b, (10 ^ b.length : Nat)⟩
      else none

/-! The environment chain (src/interpreter/src/environment.rs).
An `Environment` owns a mutable name-to-value map and an optional parent.
The `Rc`-shared graph is an arena: `Store` is the list of all environments
created so far, and an environment handle is its index. A parent index is
always older (smaller) than its child, mirroring that `new_enclosing` links
to an already existing `Rc`. -/

/-- One environment record: optional enclosing index plus the local map
(the `RefCell<HashMap>` modelled as an insertion-ordered association list). -/
structure Env where
  enclosing : Option Nat
  values : List (String × Value)

/-- The arena of environments. -/
abbrev Store := List Env

/-- HashMap::get on the association-list model. -/
def mapGet (m : List (String × Value)) (k : String) : Option Value :=
  match m with
  | [] => none
  | (k', v) :: rest => if k' = k then some v else mapGet rest k

/-- HashMap::insert on the association-list model: overwrite the existing
entry in place, or append a new one. -/
def mapInsert (m : List (String × Value)) (k : String) (v : Value) :
    List (String × Value) :=
  match m with
  | [] => [(k, v)]
  | (k', v') :: rest =>
      if k' = k then (k, v) :: rest else (k', v') :: mapInsert rest k v

namespace Environment

/-- The `clock` native function value registered by define_native_functions. -/
def clockVal : Value := .function (.native "clock" [])

/-- The `random` native function value registered by define_native_functions. -/
def randomVal : Value := .function (.native "random" [])

/-- Environment::new — a parentless environment pre-populated (via
define_native_functions) with the `clock` and `random` natives. -/
def envNew : Env :=
  { enclosing := none
    values := mapInsert (mapInsert [] "clock" clockVal) "random" randomVal }

/-- Environment::new_enclosing — append a fresh empty environment whose
parent is `parent`; its handle is the old store length. -/
def pushEnv (s : Store) (parent : Nat) : Store :=
  s ++ [{ enclosing := some parent, values := [] }]

/-- Environment::define — insert into the local map of environment `i`
(always the current scope, never a parent). -/
def define (s : Store) (i : Nat) (k : String) (v : Value) : Store :=
  match s[i]? with
  | some e => s.set i { e with values := mapInsert e.values k v }
  | none => s

/-- Environment::has, walking the parent chain; `fuel` bounds the number of
parent hops (every store the interpreter builds has parent index < child
index, so the store length always suffices). -/
def hasFuel (s : Store) : Nat → Nat → String → Bool
  | 0, _, _ => false
  | fuel + 1, i, k =>
      match s[i]? with
      | none => false
      | some e =>
          match mapGet e.values k with
          | some _ => true
          | none =>
              match e.enclosing with
              | some p => hasFuel s fuel p k
              | none => false

/-- Environment::get: the local map first, then — exactly as the source,
which asks `enclosing.has` before recursing — the parent chain; `none` is
the UndefinedVariable panic. -/
def getFuel (s : Store) : Nat → Nat → String → Option Value
  | 0, _, _ => none
  | fuel + 1, i, k =>
      match s[i]? with
      | none => none
      | some e =>
          match mapGet e.values k with
          | some v => some v
          | none =>
              match e.enclosing with
              | some p => if hasFuel s fuel p k then getFuel s fuel p k else none
              | none => none

/-- Environment::assign: overwrite in the local map if the name is bound
there, otherwise hand the write to the first parent whose chain binds it;
`none` is the UndefinedVariable panic. Assignment never inserts a fresh
name. -/
def assignFuel (s : Store) : Nat → Nat → String → Value → Option Store
  | 0, _, _, _ => none
  | fuel + 1, i, k, v =>
      match s[i]? with
      | none => none
      | some e =>
          match mapGet e.values k with
          | some _ => some (s.set i { e with values := mapInsert e.values k v })
          | none =>
              match e.enclosing with
              | some p => if hasFuel s fuel p k then assignFuel s fuel p k v else none
              | none => none

/-- Environment::has with the always-sufficient fuel. -/
def has (s : Store) (i : Nat) (k : String) : Bool := hasFuel s s.length i k

/-- Environment::get with the always-sufficient fuel. -/
def get (s : Store) (i : Nat) (k : String) : Option Value := getFuel s s.length i k

/-- Environment::assign with the always-sufficient fuel. -/
def assign (s : Store) (i : Nat) (k : String) (v : Value) : Option Store :=
  assignFuel s s.length i k v

end Environment

/-- Runtime error conditions; each constructor marks one panic site of the
evaluator (src/interpreter/src/interpreter.rs and the value/function
modules). `nativeCall` marks that execution reached a host-provided native
function, whose behaviour is outside the model. -/
inductive Exc
  | undefinedVariable (name : String)
  | notCallable
  | arityMismatch (expected got : Nat)
  | typeMismatch
  | invalidOperator
  | badNumberLit (lit : String)
  | setNameUnimplemented
  | nativeCall (name : String)
  deriving DecidableEq, Repr

/-- Result of a fueled evaluation step: a value, a panic, or out of fuel
(the latter at every fuel means the source diverges). -/
inductive Res (α : Type)
  | ok (a : α)
  | err (e : Exc)
  | out

/-- Monadic bind on `Res`. -/
def Res.bind {α β : Type} : Res α → (α → Res β) → Res β
  | .ok a, f => f a
  | .err e, _ => .err e
  | .out, _ => .out

namespace Interpreter

/-- Dispatch of one binary operator over two evaluated operands
(Interpreter::evaluate, Binary arm): the operator table maps onto the value
methods, the remaining operators hit `unimplemented!()`. -/
def binaryOp (op : Operator) (l r : Value) : Res Value :=
  let lift : Option Value → Res Value := fun o =>
    match o with
    | some v => .ok v
    | none => .err .typeMismatch
  match op with
  | .plus => lift (l.sum r)
  | .minus => lift (l.sub r)
  | .asterisk => lift (l.mult r)
  | .slash => lift (l.div r)
  | .greaterThan => lift (l.gt r)
  | .greaterThanOrEqual => lift (l.gte r)
  | .lessThan => lift (l.lt r)
  | .lessThanOrEqual => lift (l.lte r)
  | .equal => lift (l.eq r)
  | .notEqual => lift (l.neq r)
  | .and => .ok (l.and r)
  | .or => .ok (l.or r)
  | _ => .err .invalidOperator

mutual

/-- Interpreter::evaluate (src/interpreter/src/interpreter.rs lines 36-137),
threading the environment arena. Every recursive call burns one unit of
fuel. -/
def evaluate (fuel : Nat) (e : Expression) (env : Nat) (s : Store) :
    Res (Value × Store) :=
  match fuel with
  | 0 => .out
  | n + 1 =>
    match e with
    | .assignement ident value =>
        if Environment.has s env ident then
          (evaluate n value env s).bind fun (v, s1) =>
            match v with
            | .function _ => .err .setNameUnimplemented
            | _ =>
                match Environment.assign s1 env ident v with
                | some s2 => .ok (v, s2)
                | none => .err (.undefinedVariable ident)
        else .err (.undefinedVariable ident)
    | .binary l op r =>
        (evaluate n l env s).bind fun (lv, s1) =>
          (evaluate n r env s1).bind fun (rv, s2) =>
            (binaryOp op lv rv).bind fun v => .ok (v, s2)
    | .grouping inner => evaluate n inner env s
    | .literal v =>
        match v with
        | .string str => .ok (.str str, s)
        | .number lit =>
            match parseNumberLit lit with
            | some q => .ok (.number q, s)
            | none => .err (.badNumberLit lit)
        | .bool b => .ok (.bool b, s)
        | .null => .ok (.null, s)
        | .function ident params body => .ok (.function (.js ident params body env), s)
    | .unary op right =>
        (evaluate n right env s).bind fun (rv, s1) =>
          match op with
          | .minus =>
              match rv.toNumber with
              | some q => .ok (.number q.neg, s1)
              | none => .err .typeMismatch
          | .bang => .ok (.bool (!rv.isTruthy), s1)
          | _ => .err .invalidOperator
    | .variable ident =>
        match Environment.get s env ident with
        | some v => .ok (v, s)
        | none => .err (.undefinedVariable ident)
    | .call callee arguments =>
        (evaluate n callee env s).bind fun (cv, s1) =>
          match cv with
          | .function f =>
              (evaluateArgs n arguments env s1).bind fun (args, s2) =>
                applyFunction n f args s2
          | _ => .err .notCallable

termination_by structural fuel
/-- Left-to-right evaluation of a call's argument list. -/
def evaluateArgs (fuel : Nat) (es : List Expression) (env : Nat) (s : Store) :
    Res (List Value × Store) :=
  match fuel with
  | 0 => .out
  | n + 1 =>
    match es with
    | [] => .ok ([], s)
    | e :: rest =>
        (evaluate n e env s).bind fun (v, s1) =>
          (evaluateArgs n rest env s1).bind fun (vs, s2) => .ok (v :: vs, s2)

termination_by structural fuel
/-- The callee dispatch of the Call arm (src/interpreter/src/interpreter.rs
lines 123-134), after callee and arguments are evaluated: the exact-arity
check, then `Callable::call` — a JsFunction body run, or a native handed to
the host. -/
def applyFunction (fuel : Nat) (f : FnKind) (args : List Value) (s : Store) :
    Res (Value × Store) :=
  match fuel with
  | 0 => .out
  | n + 1 =>
    if f.arity ≠ args.length then .err (.arityMismatch f.arity args.length)
    else
      match f with
      | .js name params body closure => callJs n name params body closure args s
      | .native name _ => .err (.nativeCall name)

termination_by structural fuel
/-- JsFunction::call (src/interpreter/src/functions/js_function.rs lines
47-60): a fresh environment enclosing the captured closure environment, each
parameter defined to its argument, then the body via execute_block. -/
def callJs (fuel : Nat) (_name : Option String) (params : List Ident)
    (body : List Statement) (closure : Nat) (args : List Value) (s : Store) :
    Res (Value × Store) :=
  match fuel with
  | 0 => .out
  | n + 1 =>
    let envId := s.length
    let s1 := Environment.pushEnv s closure
    let s2 := (params.zip args).foldl (fun st pa => Environment.define st envId pa.1 pa.2) s1
    executeBlock n body envId s2

termination_by structural fuel
/-- Interpreter::execute_block (src/interpreter/src/interpreter.rs lines
23-34): run the block's statements in order, stopping at the first one that
yields a return signal; the result defaults to Null. -/
def executeBlock (fuel : Nat) (stmts : List Statement) (env : Nat) (s : Store) :
    Res (Value × Store) :=
  match fuel with
  | 0 => .out
  | n + 1 =>
    match stmts with
    | [] => .ok (.null, s)
    | st :: rest =>
        (execute n st env s).bind fun (sig, s1) =>
          match sig with
          | some v => .ok (v, s1)
          | none => executeBlock n rest env s1

termination_by structural fuel
/-- Interpreter::execute (src/interpreter/src/interpreter.rs lines 139-199).
The result's first component is the return signal: `some v` only from a
Return statement. Note that the If, While and Block arms invoke `execute`
on their sub-statements and drop the signal, exactly as the source does. -/
def execute (fuel : Nat) (st : Statement) (env : Nat) (s : Store) :
    Res (Option Value × Store) :=
  match fuel with
  | 0 => .out
  | n + 1 =>
    match st with
    | .printStmt e =>
        (evaluate n e env s).bind fun (_, s1) => .ok (none, s1)
    | .letStmt ident expression =>
        match expression with
        | some e =>
            (evaluate n e env s).bind fun (v, s1) =>
              .ok (none, Environment.define s1 env ident v)
        | none => .ok (none, Environment.define s env ident .null)
    | .ifStmt condition consequence alternative =>
        (evaluate n condition env s).bind fun (c, s1) =>
          if c.isTruthy then
            (execute n consequence env s1).bind fun (_, s2) => .ok (none, s2)
          else
            match alternative with
            | some alt => (execute n alt env s1).bind fun (_, s2) => .ok (none, s2)
            | none => .ok (none, s1)
    | .whileStmt condition body =>
        (evaluate n condition env s).bind fun (c, s1) =>
          if c.isTruthy then
            (execute n body env s1).bind fun (_, s2) =>
              execute n (.whileStmt condition body) env s2
          else .ok (none, s1)
    | .block statements =>
        (executeList n statements env s).bind fun s1 => .ok (none, s1)
    | .exprStmt e =>
        (evaluate n e env s).bind fun (_, s1) => .ok (none, s1)
    | .functionStmt ident parameters body =>
        .ok (none, Environment.define s env ident (.function (.js (some ident) parameters body env)))
    | .returnStmt e =>
        (evaluate n e env s).bind fun (v, s1) => .ok (some v, s1)

termination_by structural fuel
/-- The statement loop shared by the Block arm and Interpreter::run: execute
each statement in order in the same environment, discarding every return
signal. -/
def executeList (fuel : Nat) (stmts : List Statement) (env : Nat) (s : Store) :
    Res Store :=
  match fuel with
  | 0 => .out
  | n + 1 =>
    match stmts with
    | [] => .ok s
    | st :: rest =>
        (execute n st env s).bind fun (_, s1) => executeList n rest env s1

termination_by structural fuel
end

/-- Interpreter::run — execute the program's top-level statements against the
given environment. -/
def run (fuel : Nat) (stmts : List Statement) (env : Nat) (s : Store) : Res Store :=
  executeList fuel stmts env s

end Interpreter

/-! The scanner (src/src/lexer/lexer.rs; the lexer crate used by the parser
ships the same Token enum in src/crates/lexer/src/token.rs). Input bytes are
naturals; the byte 0 is the end-of-input sentinel, as in the source. -/

/-- Token kinds, from the Token enum. Keyword tokens carry a T suffix where
the Rust name is a Lean keyword. -/
inductive Token
  | ident (s : String)
  | number (s : String)
  | string (s : String)
  | print
  | null
  | illegal
  | eof
  | bang
  | assign
  | equal
  | notEqual
  | lessThan
  | lessThanOrEqual
  | greaterThan
  | greaterThanOrEqual
  | plus
  | minus
  | asterisk
  | and
  | or
  | forwardSlash
  | comma
  | semicolon
  | lparen
  | rparen
  | lSquirly
  | rSquirly
  | function
  | letT
  | ifT
  | elseT
  | whileT
  | forT
  | doT
  | returnT
  | trueT
  | falseT
  | newline
  deriving DecidableEq, Repr

/-- Scanner state: current position, read position, current byte, the input
bytes and the most recently produced token, exactly the fields of the Rust
Lexer struct. -/
structure Lexer where
  position : Nat
  read_position : Nat
  ch : Nat
  input : List Nat
  curr_token : Token
  deriving Repr

/-- u8::is_ascii_whitespace — space, tab, newline, form feed, carriage
return. -/
def isAsciiWhitespace (b : Nat) : Bool :=
  b = 32 || b = 9 || b = 10 || b = 12 || b = 13

/-- u8::is_ascii_alphabetic. -/
def isAsciiAlphabetic (b : Nat) : Bool :=
  (65 ≤ b && b ≤ 90) || (97 ≤ b && b ≤ 122)

/-- u8::is_ascii_digit. -/
def isAsciiDigit (b : Nat) : Bool := 48 ≤ b && b ≤ 57

namespace Lexer

/-- Lexer::is_at_end — only the end-of-input marker remains. -/
def is_at_end (l : Lexer) : Bool := l.read_position ≥ l.input.length

/-- Lexer::read_char — load the byte at the read position (0 at the end) and
advance. -/
def read_char (l : Lexer) : Lexer :=
  { l with
    ch := if l.is_at_end then 0 else l.input.getD l.read_position 0
    position := l.read_position
    read_position := l.read_position + 1 }

/-- Lexer::new — zeroed state over the input, primed with one read_char. -/
def new (input : List Nat) : Lexer :=
  read_char { position := 0, read_position := 0, ch := 0, input := input, curr_token := .illegal }

/-- Lexer::peek_char — the byte after the current position, 0 past the
end. -/
def peek_char (l : Lexer) : Nat :=
  if l.position + 1 ≥ l.input.length then 0 else l.input.getD (l.position + 1) 0

/-- The scanner's whitespace-skipping loop; `none` means the fuel ran out. -/
def skipWhitespace : Nat → Lexer → Option Lexer
  | 0, _ => none
  | fuel + 1, l =>
      if isAsciiWhitespace l.ch then skipWhitespace fuel l.read_char else some l

/-- Bytes `[a, b)` of the input rendered as a string
(String::from_utf8_lossy on the all-ASCII slices the scanner takes). -/
def sliceToString (input : List Nat) (a b : Nat) : String :=
  String.mk (((input.drop a).take (b - a)).map Char.ofNat)

/-- The read_ident loop: advance while the byte is alphabetic or an
underscore. -/
def readIdentLoop : Nat → Lexer → Option Lexer
  | 0, _ => none
  | fuel + 1, l =>
      if isAsciiAlphabetic l.ch || l.ch = 95 then readIdentLoop fuel l.read_char else some l

/-- Lexer::read_ident — the identifier text from the entry position to the
loop's stop position. -/
def read_ident (fuel : Nat) (l : Lexer) : Option (String × Lexer) :=
  (readIdentLoop fuel l).map fun l' => (sliceToString l.input l.position l'.position, l')

/-- The read_number loop: digits, plus at most one dot. -/
def readNumberLoop : Nat → Bool → Lexer → Option Lexer
  | 0, _, _ => none
  | fuel + 1, has_dot, l =>
      if isAsciiDigit l.ch || (l.ch = 46 && !has_dot) then
        readNumberLoop fuel (has_dot || l.ch = 46) l.read_char
      else some l

/-- Lexer::read_number. -/
def read_number (fuel : Nat) (l : Lexer) : Option (String × Lexer) :=
  (readNumberLoop fuel false l).map fun l' => (sliceToString l.input l.position l'.position, l')

/-- The read_delimiter loop: advance until the delimiter byte; an input with
no delimiter ahead loops forever in the source (here: out of fuel). -/
def readDelimLoop (delim : Nat) : Nat → Lexer → Option Lexer
  | 0, _ => none
  | fuel + 1, l =>
      if l.ch ≠ delim then readDelimLoop delim fuel l.read_char else some l

/-- Lexer::read_delimiter. -/
def read_delimiter (fuel : Nat) (l : Lexer) (delim : Nat) : Option (String × Lexer) :=
  (readDelimLoop delim fuel l).map fun l' => (sliceToString l.input l.position l'.position, l')

/-- The keyword table at the end of the identifier arm of parse_token. -/
def keywordToken (s : String) : Token :=
  if s = "function" then .function
  else if s = "let" then .letT
  else if s = "if" then .ifT
  else if s = "else" then .elseT
  else if s = "while" then .whileT
  else if s = "for" then .forT
  else if s = "do" then .doT
  else if s = "return" then .returnT
  else if s = "true" then .trueT
  else if s = "false" then .falseT
  else if s = "null" then .null
  else if s = "print" then .print
  else .ident s

end Lexer

/-- Result of a scanner step: a token with the next state, a panic on the
offending byte, or out of fuel. -/
inductive LexRes (α : Type)
  | ok (a : α) (l : Lexer)
  | panicked (b : Nat)
  | out

namespace Lexer

/-- Lexer::parse_token (src/src/lexer/lexer.rs lines 83-188). Single-byte
arms produce their token and then take the trailing read_char; the string,
identifier and number arms return early without it; a lone ampersand or pipe
produces the Illegal placeholder token; any other unmatched byte panics
("Unexpected character"). -/
def parse_token (fuel : Nat) (l : Lexer) : LexRes Token :=
  if l.ch = 123 then .ok .lSquirly l.read_char
  else if l.ch = 125 then .ok .rSquirly l.read_char
  else if l.ch = 40 then .ok .lparen l.read_char
  else if l.ch = 41 then .ok .rparen l.read_char
  else if l.ch = 44 then .ok .comma l.read_char
  else if l.ch = 59 then .ok .semicolon l.read_char
  else if l.ch = 61 then
    if l.peek_char = 61 then .ok .equal l.read_char.read_char else .ok .assign l.read_char
  else if l.ch = 43 then .ok .plus l.read_char
  else if l.ch = 45 then .ok .minus l.read_char
  else if l.ch = 42 then .ok .asterisk l.read_char
  else if l.ch = 47 then .ok .forwardSlash l.read_char
  else if l.ch = 60 then
    if l.peek_char = 61 then .ok .lessThanOrEqual l.read_char.read_char
    else .ok .lessThan l.read_char
  else if l.ch = 62 then
    if l.peek_char = 61 then .ok .greaterThanOrEqual l.read_char.read_char
    else .ok .greaterThan l.read_char
  else if l.ch = 38 then
    if l.peek_char = 38 then .ok .and l.read_char.read_char else .ok .illegal l.read_char
  else if l.ch = 124 then
    if l.peek_char = 124 then .ok .or l.read_char.read_char else .ok .illegal l.read_char
  else if l.ch = 33 then
    if l.peek_char = 61 then .ok .notEqual l.read_char.read_char else .ok .bang l.read_char
  else if l.ch = 34 then
    match l.read_char.read_delimiter fuel 34 with
    | some (str, l1) => .ok (.string str) l1.read_char
    | none => .out
  else if isAsciiAlphabetic l.ch || l.ch = 95 then
    match l.read_ident fuel with
    | some (id, l1) => .ok (keywordToken id) l1
    | none => .out
  else if isAsciiDigit l.ch || l.ch = 46 then
    match l.read_number fuel with
    | some (numStr, l1) => .ok (.number numStr) l1
    | none => .out
  else if l.ch = 10 then
    if l.peek_char = 13 then .ok .newline l.read_char.read_char else .ok .newline l.read_char
  else if l.ch = 0 then .ok .eof l.read_char
  else .panicked l.ch

/-- Lexer::next_token — skip whitespace, parse one token, record it as the
current token. -/
def next_token (fuel : Nat) (l : Lexer) : LexRes Token :=
  match skipWhitespace fuel l with
  | none => .out
  | some l1 =>
      match l1.parse_token fuel with
      | .ok t l2 => .ok t { l2 with curr_token := t }
      | .panicked b => .panicked b
      | .out => .out

/-- Lexer::peek_token — scan the next token, then restore position, read
position, current byte and current token from the snapshot. -/
def peek_token (fuel : Nat) (l : Lexer) : LexRes Token :=
  match l.next_token fuel with
  | .ok t l1 =>
      .ok t { l1 with
        position := l.position
        read_position := l.read_position
        ch := l.ch
        curr_token := l.curr_token }
  | .panicked b => .panicked b
  | .out => .out

/-- Lexer::match_token_and_consume — if the peeked token equals the expected
one, consume it (via next_token) and answer true; otherwise answer false
without advancing. -/
def match_token_and_consume (fuel : Nat) (l : Lexer) (t : Token) : LexRes Bool :=
  match l.peek_token fuel with
  | .ok t' l1 =>
      if t' = t then
        match l.next_token fuel with
        | .ok _ l2 => .ok true l2
        | .panicked b => .panicked b
        | .out => .out
      else .ok false l1
  | .panicked b => .panicked b
  | .out => .out

end Lexer

/-! The recursive-descent parser (src/crates/parser/src/parser.rs). Every
`panic!` of the parser (a failed `expect`, a bad assignment target, too many
parameters or arguments, a missing identifier or primary expression, a Let
used as an If branch) is collapsed into the single `fail` outcome; `out` is
fuel exhaustion. -/

/-- Result of a parsing step. -/
inductive ParseRes (α : Type)
  | ok (a : α) (l : Lexer)
  | fail
  | out

/-- Monadic bind on `ParseRes`, threading the scanner state. -/
def ParseRes.bind {α β : Type} : ParseRes α → (α → Lexer → ParseRes β) → ParseRes β
  | .ok a l, f => f a l
  | .fail, _ => .fail
  | .out, _ => .out

namespace Parser

/-- Lift a scanner result into a parser result (a scanner panic aborts the
parse). -/
def ofLex {α : Type} : LexRes α → ParseRes α
  | .ok a l => .ok a l
  | .panicked _ => .fail
  | .out => .out

/-- Parser::expect — consume the expected token or abort. -/
def expect (fuel : Nat) (t : Token) (l : Lexer) : ParseRes Unit :=
  match l.match_token_and_consume fuel t with
  | .ok true l1 => .ok () l1
  | .ok false _ => .fail
  | .panicked _ => .fail
  | .out => .out

/-- Parser::parse_ident — the next token must be an identifier. -/
def parse_ident (fuel : Nat) (l : Lexer) : ParseRes Ident :=
  match l.next_token fuel with
  | .ok (.ident s) l1 => .ok s l1
  | .ok _ _ => .fail
  | .panicked _ => .fail
  | .out => .out

/-- Parser::parse_token_to_operator; `none` is its catch-all panic. -/
def parse_token_to_operator : Token → Option Operator
  | .plus => some .plus
  | .minus => some .minus
  | .asterisk => some .asterisk
  | .forwardSlash => some .slash
  | .bang => some .bang
  | .equal => some .equal
  | .notEqual => some .notEqual
  | .and => some .and
  | .or => some .or
  | .lessThan => some .lessThan
  | .lessThanOrEqual => some .lessThanOrEqual
  | .greaterThan => some .greaterThan
  | .greaterThanOrEqual => some .greaterThanOrEqual
  | _ => none

/-- Statement::_if (src/crates/parser/src/statements/statement.rs): the
constructor refuses a Let statement as the consequence. -/
def mkIf (condition : Expression) (consequence : Statement)
    (alternative : Option Statement) : Option Statement :=
  match consequence with
  | .letStmt _ _ => none
  | _ => some (.ifStmt condition consequence alternative)

/-- The AST construction at the tail of Parser::for_statement (parser.rs
lines 192-220): default the missing condition to the literal `true`, wrap
the body with the increment in a block when an increment was parsed, build
the while, and wrap it with the initializer in a block when an initializer
was parsed. -/
def forStatementBuild (initializer : Option Statement) (condition : Option Expression)
    (increment : Option Expression) (body0 : Statement) : Statement :=
  let condition :=
    match condition with
    | some c => c
    | none => .literal (.bool true)
  let body1 :=
    match increment with
    | some inc => Statement.block [body0, .exprStmt inc]
    | none => body0
  let body2 := Statement.whileStmt condition body1
  match initializer with
  | some ini => Statement.block [ini, body2]
  | none => body2

/-- The parser productions at one fuel level: one field per function of the
Rust Parser impl, plus one per inner repetition loop. Recursive calls go
through the parser at the next-lower fuel level, so every production call
consumes one unit of fuel, and at fuel 0 every production answers out. -/
structure ParserFns where
  parseLoop : Lexer → ParseRes (List Statement)
  declaration : Lexer → ParseRes Statement
  var_decl : Lexer → ParseRes Statement
  paramsLoop : List Ident → Lexer → ParseRes (List Ident)
  functionExpr : Lexer → ParseRes Expression
  function_decl : Lexer → ParseRes Statement
  blockLoop : Lexer → ParseRes (List Statement)
  block_statement : Lexer → ParseRes Statement
  if_statement : Lexer → ParseRes Statement
  while_statement : Lexer → ParseRes Statement
  for_statement : Lexer → ParseRes Statement
  print_statement : Lexer → ParseRes Statement
  return_statement : Lexer → ParseRes Statement
  statement : Lexer → ParseRes Statement
  expression_statement : Lexer → ParseRes Statement
  primary : Lexer → ParseRes Expression
  argsLoop : List Expression → Lexer → ParseRes (List Expression)
  argumentsP : Lexer → ParseRes (List Expression)
  finish_call : Expression → Lexer → ParseRes Expression
  callLoop : Expression → Lexer → ParseRes Expression
  callExpr : Lexer → ParseRes Expression
  unaryExpr : Lexer → ParseRes Expression
  factorLoop : Expression → Lexer → ParseRes Expression
  factor : Lexer → ParseRes Expression
  termLoop : Expression → Lexer → ParseRes Expression
  term : Lexer → ParseRes Expression
  comparisonLoop : Expression → Lexer → ParseRes Expression
  comparison : Lexer → ParseRes Expression
  equalityLoop : Expression → Lexer → ParseRes Expression
  equality : Lexer → ParseRes Expression
  andLoop : Expression → Lexer → ParseRes Expression
  andExpr : Lexer → ParseRes Expression
  orLoop : Expression → Lexer → ParseRes Expression
  orExpr : Lexer → ParseRes Expression
  assignment : Lexer → ParseRes Expression
  expression : Lexer → ParseRes Expression

/-- The fuel-exhausted parser: every production answers out. -/
def outFns : ParserFns where
  parseLoop := fun _ => .out
  declaration := fun _ => .out
  var_decl := fun _ => .out
  paramsLoop := fun _ _ => .out
  functionExpr := fun _ => .out
  function_decl := fun _ => .out
  blockLoop := fun _ => .out
  block_statement := fun _ => .out
  if_statement := fun _ => .out
  while_statement := fun _ => .out
  for_statement := fun _ => .out
  print_statement := fun _ => .out
  return_statement := fun _ => .out
  statement := fun _ => .out
  expression_statement := fun _ => .out
  primary := fun _ => .out
  argsLoop := fun _ _ => .out
  argumentsP := fun _ => .out
  finish_call := fun _ _ => .out
  callLoop := fun _ _ => .out
  callExpr := fun _ => .out
  unaryExpr := fun _ => .out
  factorLoop := fun _ _ => .out
  factor := fun _ => .out
  termLoop := fun _ _ => .out
  term := fun _ => .out
  comparisonLoop := fun _ _ => .out
  comparison := fun _ => .out
  equalityLoop := fun _ _ => .out
  equality := fun _ => .out
  andLoop := fun _ _ => .out
  andExpr := fun _ => .out
  orLoop := fun _ _ => .out
  orExpr := fun _ => .out
  assignment := fun _ => .out
  expression := fun _ => .out

/-- One fuel level of the parser. Each field transcribes the function of the
same name in the Rust Parser impl; `n` is the fuel handed to scanner calls
and `p` is the parser at the next-lower fuel level, used for every recursive
call. -/
def stepFns (n : Nat) (p : ParserFns) : ParserFns where
  -- parse(): declarations until the scanner is at its end, with an optional
  -- semicolon consumed after each one.
  parseLoop := fun l =>
    if l.is_at_end then .ok [] l
    else
      (p.declaration l).bind fun st l1 =>
        (ofLex (l1.match_token_and_consume n .semicolon)).bind fun _ l2 =>
          (p.parseLoop l2).bind fun sts l3 => .ok (st :: sts) l3
  -- Parser::declaration — functionDecl | varDecl | statement.
  declaration := fun l =>
    (ofLex (l.match_token_and_consume n .function)).bind fun isFn l1 =>
      if isFn then p.function_decl l1
      else
        (ofLex (l1.match_token_and_consume n .letT)).bind fun isLet l2 =>
          if isLet then p.var_decl l2 else p.statement l2
  -- Parser::var_decl — identifier, optional initializer, optional semicolon.
  var_decl := fun l =>
    (parse_ident n l).bind fun ident l1 =>
      (ofLex (l1.match_token_and_consume n .assign)).bind fun hasInit l2 =>
        if hasInit then
          (p.expression l2).bind fun e l3 =>
            (ofLex (l3.match_token_and_consume n .semicolon)).bind fun _ l4 =>
              .ok (.letStmt ident (some e)) l4
        else
          (ofLex (l2.match_token_and_consume n .semicolon)).bind fun _ l3 =>
            .ok (.letStmt ident none) l3
  -- The parameter list loop of Parser::function — at most 255 parameters.
  paramsLoop := fun acc l =>
    if acc.length ≥ 255 then .fail
    else
      (parse_ident n l).bind fun ident l1 =>
        (ofLex (l1.match_token_and_consume n .comma)).bind fun more l2 =>
          if more then p.paramsLoop (acc ++ [ident]) l2 else .ok (acc ++ [ident]) l2
  -- Parser::function — parenthesised parameters and a block body, producing
  -- an anonymous function literal expression.
  functionExpr := fun l =>
    (expect n .lparen l).bind fun _ l1 =>
      (ofLex (l1.peek_token n)).bind fun t l2 =>
        (if t ≠ .rparen then p.paramsLoop [] l2 else .ok [] l2).bind fun params l3 =>
          (expect n .rparen l3).bind fun _ l4 =>
            (expect n .lSquirly l4).bind fun _ l5 =>
              (p.block_statement l5).bind fun blk l6 =>
                match blk with
                | .block stmts => .ok (.literal (.function none params stmts)) l6
                | _ => .fail
  -- Parser::function_decl — named function declaration built from the
  -- anonymous function literal.
  function_decl := fun l =>
    (parse_ident n l).bind fun ident l1 =>
      (p.functionExpr l1).bind fun fe l2 =>
        match fe with
        | .literal (.function _ params body) => .ok (.functionStmt ident params body) l2
        | _ => .fail
  -- The declaration loop inside Parser::block_statement.
  blockLoop := fun l =>
    (ofLex (l.peek_token n)).bind fun t l1 =>
      if t ≠ .rSquirly ∧ t ≠ .eof then
        (p.declaration l1).bind fun st l2 =>
          (ofLex (l2.match_token_and_consume n .semicolon)).bind fun _ l3 =>
            (p.blockLoop l3).bind fun sts l4 => .ok (st :: sts) l4
      else .ok [] l1
  -- Parser::block_statement — declarations up to the closing brace.
  block_statement := fun l =>
    (p.blockLoop l).bind fun sts l1 =>
      (expect n .rSquirly l1).bind fun _ l2 => .ok (.block sts) l2
  -- Parser::if_statement (the If keyword already consumed); Statement::_if
  -- refuses a Let consequence.
  if_statement := fun l =>
    (expect n .lparen l).bind fun _ l1 =>
      (p.expression l1).bind fun condition l2 =>
        (expect n .rparen l2).bind fun _ l3 =>
          (p.statement l3).bind fun consequence l4 =>
            (ofLex (l4.match_token_and_consume n .elseT)).bind fun hasElse l5 =>
              if hasElse then
                (p.statement l5).bind fun alt l6 =>
                  match mkIf condition consequence (some alt) with
                  | some st => .ok st l6
                  | none => .fail
              else
                match mkIf condition consequence none with
                | some st => .ok st l5
                | none => .fail
  -- Parser::while_statement.
  while_statement := fun l =>
    (expect n .lparen l).bind fun _ l1 =>
      (p.expression l1).bind fun condition l2 =>
        (expect n .rparen l2).bind fun _ l3 =>
          (p.statement l3).bind fun body l4 => .ok (.whileStmt condition body) l4
  -- Parser::for_statement (parser.rs lines 183-221). The initializer match
  -- consumes one token unconditionally: Let starts a var_decl, a semicolon
  -- means no initializer, and on any other token the (discarded) token is
  -- followed by an expression statement, exactly as in the source; the
  -- desugared statement is assembled by forStatementBuild.
  for_statement := fun l =>
    (expect n .lparen l).bind fun _ l1 =>
      (ofLex (l1.next_token n)).bind fun t l2 =>
        (match t with
          | .letT => (p.var_decl l2).bind fun ini l3 => .ok (some ini) l3
          | .semicolon => .ok none l2
          | _ => (p.expression_statement l2).bind fun ini l3 => .ok (some ini) l3).bind
        fun initializer l3 =>
          (ofLex (l3.peek_token n)).bind fun tc l4 =>
            (if tc ≠ .semicolon then
                (p.expression l4).bind fun c l5 => .ok (some c) l5
              else .ok none l4).bind fun condition l5 =>
              (expect n .semicolon l5).bind fun _ l6 =>
                (ofLex (l6.peek_token n)).bind fun ti l7 =>
                  (if ti ≠ .rparen then
                      (p.expression l7).bind fun i l8 => .ok (some i) l8
                    else .ok none l7).bind fun increment l8 =>
                    (expect n .rparen l8).bind fun _ l9 =>
                      (p.statement l9).bind fun body l10 =>
                        .ok (forStatementBuild initializer condition increment body) l10
  -- Parser::print_statement.
  print_statement := fun l =>
    (p.expression l).bind fun e l1 =>
      (ofLex (l1.match_token_and_consume n .semicolon)).bind fun _ l2 =>
        .ok (.printStmt e) l2
  -- Parser::return_statement — an expression unless a semicolon follows
  -- immediately, in which case the value is the Null literal.
  return_statement := fun l =>
    (ofLex (l.peek_token n)).bind fun t l1 =>
      if t ≠ .semicolon then
        (p.expression l1).bind fun e l2 => .ok (.returnStmt e) l2
      else .ok (.returnStmt (.literal .null)) l1
  -- Parser::statement — dispatch over the statement keywords.
  statement := fun l =>
    (ofLex (l.match_token_and_consume n .ifT)).bind fun isIf l1 =>
      if isIf then p.if_statement l1
      else
        (ofLex (l1.match_token_and_consume n .lSquirly)).bind fun isBlk l2 =>
          if isBlk then p.block_statement l2
          else
            (ofLex (l2.match_token_and_consume n .whileT)).bind fun isWhile l3 =>
              if isWhile then p.while_statement l3
              else
                (ofLex (l3.match_token_and_consume n .forT)).bind fun isFor l4 =>
                  if isFor then p.for_statement l4
                  else
                    (ofLex (l4.match_token_and_consume n .print)).bind fun isPrint l5 =>
                      if isPrint then p.print_statement l5
                      else
                        (ofLex (l5.match_token_and_consume n .returnT)).bind fun isRet l6 =>
                          if isRet then p.return_statement l6
                          else p.expression_statement l6
  -- Parser::expression_statement.
  expression_statement := fun l =>
    (p.expression l).bind fun e l1 => .ok (.exprStmt e) l1
  -- Parser::primary — literals, identifiers and parenthesised groups.
  primary := fun l =>
    match l.next_token n with
    | .ok (.ident s) l1 => .ok (.variable s) l1
    | .ok (.number s) l1 => .ok (.literal (.number s)) l1
    | .ok (.string s) l1 => .ok (.literal (.string s)) l1
    | .ok .trueT l1 => .ok (.literal (.bool true)) l1
    | .ok .falseT l1 => .ok (.literal (.bool false)) l1
    | .ok .null l1 => .ok (.literal .null) l1
    | .ok .lparen l1 =>
        (p.expression l1).bind fun e l2 =>
          (expect n .rparen l2).bind fun _ l3 => .ok (.grouping e) l3
    | .ok _ _ => .fail
    | .panicked _ => .fail
    | .out => .out
  -- The argument list loop of Parser::arguments — at most 255 arguments.
  argsLoop := fun acc l =>
    if acc.length ≥ 255 then .fail
    else
      (p.expression l).bind fun e l1 =>
        (ofLex (l1.match_token_and_consume n .comma)).bind fun more l2 =>
          if more then p.argsLoop (acc ++ [e]) l2 else .ok (acc ++ [e]) l2
  -- Parser::arguments.
  argumentsP := fun l =>
    (ofLex (l.peek_token n)).bind fun t l1 =>
      if t ≠ .rparen then p.argsLoop [] l1 else .ok [] l1
  -- Parser::finish_call.
  finish_call := fun callee l =>
    (p.argumentsP l).bind fun args l1 =>
      (expect n .rparen l1).bind fun _ l2 => .ok (.call callee args) l2
  -- The chained-call loop of Parser::call.
  callLoop := fun acc l =>
    (ofLex (l.match_token_and_consume n .lparen)).bind fun isCall l1 =>
      if isCall then (p.finish_call acc l1).bind fun e l2 => p.callLoop e l2
      else .ok acc l1
  -- Parser::call — a primary followed by zero or more argument lists.
  callExpr := fun l =>
    (p.primary l).bind fun e l1 => p.callLoop e l1
  -- Parser::unary — right-associative bang/minus, else call.
  unaryExpr := fun l =>
    (ofLex (l.peek_token n)).bind fun t l1 =>
      match t with
      | .bang | .minus =>
          (ofLex (l1.next_token n)).bind fun t2 l2 =>
            match parse_token_to_operator t2 with
            | some op => (p.unaryExpr l2).bind fun right l3 => .ok (.unary op right) l3
            | none => .fail
      | _ => p.callExpr l1
  -- The operator repetition loop of Parser::factor.
  factorLoop := fun acc l =>
    (ofLex (l.peek_token n)).bind fun t l1 =>
      if t = .asterisk ∨ t = .forwardSlash then
        (ofLex (l1.next_token n)).bind fun t2 l2 =>
          match parse_token_to_operator t2 with
          | some op =>
              (p.unaryExpr l2).bind fun right l3 => p.factorLoop (.binary acc op right) l3
          | none => .fail
      else .ok acc l1
  -- Parser::factor.
  factor := fun l =>
    (p.unaryExpr l).bind fun e l1 => p.factorLoop e l1
  -- The operator repetition loop of Parser::term.
  termLoop := fun acc l =>
    (ofLex (l.peek_token n)).bind fun t l1 =>
      if t = .plus ∨ t = .minus then
        (ofLex (l1.next_token n)).bind fun t2 l2 =>
          match parse_token_to_operator t2 with
          | some op =>
              (p.factor l2).bind fun right l3 => p.termLoop (.binary acc op right) l3
          | none => .fail
      else .ok acc l1
  -- Parser::term.
  term := fun l =>
    (p.factor l).bind fun e l1 => p.termLoop e l1
  -- The operator repetition loop of Parser::comparison.
  comparisonLoop := fun acc l =>
    (ofLex (l.peek_token n)).bind fun t l1 =>
      if t = .greaterThan ∨ t = .greaterThanOrEqual ∨ t = .lessThan ∨ t = .lessThanOrEqual then
        (ofLex (l1.next_token n)).bind fun t2 l2 =>
          match parse_token_to_operator t2 with
          | some op =>
              (p.term l2).bind fun right l3 => p.comparisonLoop (.binary acc op right) l3
          | none => .fail
      else .ok acc l1
  -- Parser::comparison.
  comparison := fun l =>
    (p.term l).bind fun e l1 => p.comparisonLoop e l1
  -- The operator repetition loop of Parser::equality.
  equalityLoop := fun acc l =>
    (ofLex (l.peek_token n)).bind fun t l1 =>
      if t = .equal ∨ t = .notEqual then
        (ofLex (l1.next_token n)).bind fun t2 l2 =>
          match parse_token_to_operator t2 with
          | some op =>
              (p.comparison l2).bind fun right l3 => p.equalityLoop (.binary acc op right) l3
          | none => .fail
      else .ok acc l1
  -- Parser::equality.
  equality := fun l =>
    (p.comparison l).bind fun e l1 => p.equalityLoop e l1
  -- The "and" repetition loop of Parser::and.
  andLoop := fun acc l =>
    (ofLex (l.match_token_and_consume n .and)).bind fun more l1 =>
      if more then
        (p.equality l1).bind fun right l2 => p.andLoop (.binary acc .and right) l2
      else .ok acc l1
  -- Parser::and.
  andExpr := fun l =>
    (p.equality l).bind fun e l1 => p.andLoop e l1
  -- The "or" repetition loop of Parser::or.
  orLoop := fun acc l =>
    (ofLex (l.match_token_and_consume n .or)).bind fun more l1 =>
      if more then
        (p.andExpr l1).bind fun right l2 => p.orLoop (.binary acc .or right) l2
      else .ok acc l1
  -- Parser::or.
  orExpr := fun l =>
    (p.andExpr l).bind fun e l1 => p.orLoop e l1
  -- Parser::assignment — after an "or" expression, an equals sign demands
  -- that the left side already reduced to a Variable, and recurses on the
  -- right.
  assignment := fun l =>
    (p.orExpr l).bind fun e l1 =>
      (ofLex (l1.match_token_and_consume n .assign)).bind fun isAssign l2 =>
        if isAssign then
          match e with
          | .variable ident =>
              (p.assignment l2).bind fun value l3 => .ok (.assignement ident value) l3
          | _ => .fail
        else .ok e l2
  -- Parser::expression — a function literal or an assignment.
  expression := fun l =>
    (ofLex (l.match_token_and_consume n .function)).bind fun isFn l1 =>
      if isFn then p.functionExpr l1 else p.assignment l1

/-- The parser at a given fuel level. -/
def parserAt : Nat → ParserFns
  | 0 => outFns
  | n + 1 => stepFns n (parserAt n)

/-- Parser::for_statement at a given fuel (entry point for the claims). -/
def for_statement (fuel : Nat) (l : Lexer) : ParseRes Statement :=
  (parserAt fuel).for_statement l

/-- Parser::parse over a fresh scanner on the given input bytes. -/
def parse (fuel : Nat) (input : List Nat) : ParseRes (List Statement) :=
  (parserAt fuel).parseLoop (Lexer.new input)

end Parser

/-- The bytes of an ASCII source string. -/
def strBytes (s : String) : List Nat := s.data.map Char.toNat

/-- A parse run reduced to its statements (`none` on failure or fuel
exhaustion). -/
def parseProgram (fuel : Nat) (src : String) : Option (List Statement) :=
  match Parser.parse fuel (strBytes src) with
  | .ok sts _ => some sts
  | _ => none

/-! Concrete programs and projections used by the claims. -/

/-- A run of a whole program from a fresh global environment, projected to
the number bound to `k` in the global scope afterwards. -/
def runNum (fuel : Nat) (prog : List Statement) (k : String) : Option FNum :=
  match Interpreter.run fuel prog 0 [Environment.envNew] with
  | .ok s =>
      match s[0]? with
      | some e =>
          match mapGet e.values k with
          | some (.number q) => some q
          | _ => none
      | none => none
  | _ => none

/-- The program `let x = 1; { let x = 2; }` of the block-scoping test. -/
def progC2 : List Statement :=
  [ .letStmt "x" (some (.literal (.number "1"))),
    .block [.letStmt "x" (some (.literal (.number "2")))] ]

/-- The body of `count` in the makeCounter closure test:
`i = i + 1; return i;`. -/
def bodyCount : List Statement :=
  [ .exprStmt (.assignement "i" (.binary (.variable "i") .plus (.literal (.number "1")))),
    .returnStmt (.variable "i") ]

/-- The body of `makeCounter`:
`let i = 0; function count(){ i = i + 1; return i; } return count;`. -/
def bodyMC : List Statement :=
  [ .letStmt "i" (some (.literal (.number "0"))),
    .functionStmt "count" [] bodyCount,
    .returnStmt (.variable "count") ]

/-- The makeCounter program with one counter called twice:
`function makeCounter(){..} let c = makeCounter(); let a = c(); let b = c();`. -/
def progC4 : List Statement :=
  [ .functionStmt "makeCounter" [] bodyMC,
    .letStmt "c" (some (.call (.variable "makeCounter") [])),
    .letStmt "a" (some (.call (.variable "c") [])),
    .letStmt "b" (some (.call (.variable "c") [])) ]

/-- The makeCounter program with two independent counters: `cone` is called
twice (yielding a=1, b=2) and then `ctwo` once (yielding d). -/
def progC4b : List Statement :=
  [ .functionStmt "makeCounter" [] bodyMC,
    .letStmt "cone" (some (.call (.variable "makeCounter") [])),
    .letStmt "ctwo" (some (.call (.variable "makeCounter") [])),
    .letStmt "a" (some (.call (.variable "cone") [])),
    .letStmt "b" (some (.call (.variable "cone") [])),
    .letStmt "d" (some (.call (.variable "ctwo") [])) ]

/-- The statement `if (true) { return 5; }`. -/
def innerIf : Statement :=
  .ifStmt (.literal (.bool true)) (.block [.returnStmt (.literal (.number "5"))]) none

/-- The statement `while (true) { if (true) { return 5; } }`. -/
def loopWhile : Statement := .whileStmt (.literal (.bool true)) (.block [innerIf])

/-- The body of `function f(){ while(true){ if(true){ return 5; } } return 10; }`. -/
def bodyF : List Statement := [loopWhile, .returnStmt (.literal (.number "10"))]

/-- The return-propagation test program: declare `f` and bind `a = f()`. -/
def progC1 : List Statement :=
  [ .functionStmt "f" [] bodyF, .letStmt "a" (some (.call (.variable "f") [])) ]

/-- The program `let f = 0; f = function(){};` — assignment of a function
value to an existing binding. -/
def progC7 : List Statement :=
  [ .letStmt "f" (some (.literal (.number "0"))),
    .exprStmt (.assignement "f" (.literal (.function none [] []))) ]

/-! ## Claim theorems -/

/-- C2 [code_bug]: the specification says a Block executes its statements in
a new child environment, so `let x = 1; { let x = 2; }` leaves the outer `x`
at 1. The Block arm of Interpreter::execute runs the statements in the same
environment — no child environment is ever created — so the run ends with a
single environment whose `x` is 2. -/
theorem c2_block_runs_in_same_environment :
    Interpreter.run 20 progC2 0 [Environment.envNew] =
      .ok [{ enclosing := none
             values := [("clock", Environment.clockVal), ("random", Environment.randomVal),
                        ("x", .number (.ofNat 2))] }]
  ∧ runNum 20 progC2 "x" = some (.ofNat 2) :=
  ⟨rfl, rfl⟩

/-- C3 [code_bug]: Value::eq compares same-kind number/string/bool pairs by
value and treats Null as equal only to Null, with `(Null, other)` yielding
false; but a cross-kind pair whose left side is not Null — in particular
`1 == "1"` — falls into the `unimplemented!()` catch-all and panics
(modelled as `none`) instead of yielding false. -/
theorem c3_value_eq :
    (∀ p q : FNum, Value.eq (.number p) (.number q) = some (.bool (p.beq q)))
  ∧ (∀ a b : String, Value.eq (.str a) (.str b) = some (.bool (decide (a = b))))
  ∧ (∀ x y : Bool, Value.eq (.bool x) (.bool y) = some (.bool (x == y)))
  ∧ Value.eq .null .null = some (.bool true)
  ∧ (∀ v : Value, v ≠ .null → Value.eq .null v = some (.bool false))
  ∧ Value.eq (.number (.ofNat 1)) (.str "1") = none := by
  refine ⟨fun p q => rfl, fun a b => rfl, fun x y => rfl, rfl, ?_, rfl⟩
  intro v h
  cases v <;> first | rfl | exact absurd rfl h

/-- Witness for c3_value_eq: Null compared with the number 1 yields false. -/
theorem c3_value_eq_witness : Value.eq .null (.number (.ofNat 1)) = some (.bool false) :=
  c3_value_eq.2.2.2.2.1 (.number (.ofNat 1)) (fun h => Value.noConfusion h)

/-- Folding Environment::define over a freshly appended environment builds
its local map in place and touches nothing else of the store. -/
theorem foldl_define_concat :
    ∀ (l : List (Ident × Value)) (s : Store) (e : Env),
      l.foldl (fun st pa => Environment.define st s.length pa.1 pa.2) (s ++ [e]) =
        s ++ [{ e with values := l.foldl (fun m pa => mapInsert m pa.1 pa.2) e.values }] := by
  intro l
  induction l with
  | nil => intro s e; rfl
  | cons pa tl ih =>
      intro s e
      obtain ⟨k, v⟩ := pa
      have hdef : Environment.define (s ++ [e]) s.length k v =
          s ++ [{ e with values := mapInsert e.values k v }] := by
        unfold Environment.define
        rw [List.getElem?_concat_length]
        simp
      simp only [List.foldl_cons, hdef]
      exact ih s { e with values := mapInsert e.values k v }

/-- C4 [confirmed]: JsFunction::call runs the body in a fresh environment
(at the current store length) whose parent is the closure environment
captured when the function value was created; consequently two calls through
one counter share and mutate the same makeCounter scope (a = 1 then b = 2),
while a counter from a second makeCounter() invocation counts independently
(d = 1). -/
theorem c4_closures :
    (∀ fuel name params body closure args s,
      Interpreter.callJs (fuel + 1) name params body closure args s =
        Interpreter.executeBlock fuel body s.length
          (s ++ [{ enclosing := some closure
                   values := (params.zip args).foldl (fun m pa => mapInsert m pa.1 pa.2) [] }]))
  ∧ runNum 60 progC4 "a" = some (.ofNat 1)
  ∧ runNum 60 progC4 "b" = some (.ofNat 2)
  ∧ runNum 80 progC4b "b" = some (.ofNat 2)
  ∧ runNum 80 progC4b "d" = some (.ofNat 1) := by
  refine ⟨?_, rfl, rfl, rfl, rfl⟩
  intro fuel name params body closure args s
  show Interpreter.executeBlock fuel body s.length
      ((params.zip args).foldl (fun st pa => Environment.define st s.length pa.1 pa.2)
        (s ++ [{ enclosing := some closure, values := [] }])) = _
  rw [foldl_define_concat]

/-- C8 [confirmed]: the evaluated call dispatch raises ArityMismatch exactly
when the argument count differs from the callee's declared parameter count:
on a mismatch it fails carrying both counts, and on a match the check passes
and the callable is invoked. In particular a zero-parameter function called
with one argument and a one-parameter function called with no arguments both
fail, end to end through evaluate. -/
theorem c8_arity :
    (∀ fuel (f : FnKind) args (s : Store), f.arity ≠ args.length →
      Interpreter.applyFunction (fuel + 1) f args s = .err (.arityMismatch f.arity args.length))
  ∧ (∀ fuel (f : FnKind) args (s : Store), f.arity = args.length →
      Interpreter.applyFunction (fuel + 1) f args s =
        match f with
        | .js name params body closure => Interpreter.callJs fuel name params body closure args s
        | .native name _ => .err (.nativeCall name))
  ∧ Interpreter.evaluate 20 (.call (.literal (.function none [] [])) [.literal .null]) 0
      [Environment.envNew] = .err (.arityMismatch 0 1)
  ∧ Interpreter.evaluate 20 (.call (.literal (.function none ["x"] [])) []) 0
      [Environment.envNew] = .err (.arityMismatch 1 0) := by
  refine ⟨?_, ?_, rfl, rfl⟩
  · intro fuel f args s h
    simp [Interpreter.applyFunction, h]
  · intro fuel f args s h
    simp [Interpreter.applyFunction, h]

/-- Witness for c8_arity: concrete mismatching and matching dispatches. -/
theorem c8_arity_witness :
    Interpreter.applyFunction 6 (.js none [] [] 0) [.null] [] = .err (.arityMismatch 0 1)
  ∧ Interpreter.applyFunction 6 (.js none ["x"] [] 0) [] [] = .err (.arityMismatch 1 0)
  ∧ Interpreter.applyFunction 6 (.js none [] [] 0) [] [] =
      Interpreter.callJs 5 none [] [] 0 [] [] :=
  ⟨c8_arity.1 5 (.js none [] [] 0) [.null] [] (by decide),
   c8_arity.1 5 (.js none ["x"] [] 0) [] [] (by decide),
   c8_arity.2.1 5 (.js none [] [] 0) [] [] rfl⟩

/-- The desugared form described by the specification claim for `for`: a
While on the condition (the literal true when the condition was omitted)
whose body is the original body — wrapped in a Block together with the
increment expression statement when an increment is present — the whole
wrapped in a Block together with the initializer when an initializer is
present. -/
def forDesugarClaim (initializer : Option Statement) (condition : Option Expression)
    (increment : Option Expression) (body0 : Statement) : Statement :=
  let w : Statement :=
    .whileStmt (condition.getD (.literal (.bool true)))
      (increment.casesOn body0 fun inc => .block [body0, .exprStmt inc])
  initializer.casesOn w fun ini => .block [ini, w]

/-- C6 [confirmed]: Parser::for_statement produces exactly the desugared
form — the condition defaults to the literal true, and the Block wrappers
for increment and initializer appear exactly when those parts are present;
the Statement type has no for-specific node at all, so the evaluator never
sees one. Concretely, the spec's example for-loop parses to its desugared
AST through the full scanner-and-parser pipeline. -/
theorem c6_for_desugars :
    (∀ ini cond inc body, Parser.forStatementBuild ini cond inc body =
      forDesugarClaim ini cond inc body)
  ∧ parseProgram 300 "for (let i = 0; i < 3; i = i + 1) { print i; }" =
      some [.block
        [ .letStmt "i" (some (.literal (.number "0"))),
          .whileStmt (.binary (.variable "i") .lessThan (.literal (.number "3")))
            (.block
              [ .block [.printStmt (.variable "i")],
                .exprStmt (.assignement "i"
                  (.binary (.variable "i") .plus (.literal (.number "1")))) ]) ]] := by
  constructor
  · intro ini cond inc body
    cases ini <;> cases cond <;> cases inc <;> rfl
  · rfl

/-- Byte heads recognised by some arm of Lexer::parse_token: operator and
punctuation bytes, the string quote, identifier heads (letters and
underscore), number heads (digits and the dot), the newline arm and the
end-of-input sentinel 0. -/
def matchedByte (b : Nat) : Bool :=
  b = 123 || b = 125 || b = 40 || b = 41 || b = 44 || b = 59 || b = 61 || b = 43 ||
  b = 45 || b = 42 || b = 47 || b = 60 || b = 62 || b = 38 || b = 124 || b = 33 ||
  b = 34 || isAsciiAlphabetic b || b = 95 || isAsciiDigit b || b = 46 || b = 10 || b = 0

/-- C5 counterexample [corrected]: scanning the single byte `&` (38) does
not fail — parse_token answers the placeholder token Illegal and advances
past the byte, contradicting the claim that every byte matching no lexical
rule is an immediate lexical error and that no placeholder token is ever
emitted. -/
theorem c5_counterexample :
    Lexer.parse_token 10 (Lexer.new [38]) =
      .ok Token.illegal
        { position := 1, read_position := 2, ch := 0, input := [38],
          curr_token := Token.illegal } := rfl

/-- C5 [corrected]: every byte that no parse_token arm recognises panics
immediately ("Unexpected character") carrying that byte — except that a
lone ampersand and a lone pipe instead produce the placeholder token
Illegal, with scanning continuing past them. -/
theorem c5_illegal_byte :
    (∀ fuel (l : Lexer), matchedByte l.ch = false →
      Lexer.parse_token fuel l = .panicked l.ch)
  ∧ (∀ fuel (l : Lexer), l.ch = 38 → l.peek_char ≠ 38 →
      Lexer.parse_token fuel l = .ok .illegal l.read_char)
  ∧ (∀ fuel (l : Lexer), l.ch = 124 → l.peek_char ≠ 124 →
      Lexer.parse_token fuel l = .ok .illegal l.read_char) := by
  refine ⟨?_, ?_, ?_⟩
  · intro fuel l h
    simp only [matchedByte, Bool.or_eq_false_iff, decide_eq_false_iff_not] at h
    obtain ⟨⟨⟨⟨⟨⟨⟨⟨⟨⟨⟨⟨⟨⟨⟨⟨⟨⟨⟨⟨⟨⟨h1, h2⟩, h3⟩, h4⟩, h5⟩, h6⟩, h7⟩, h8⟩, h9⟩,
      h10⟩, h11⟩, h12⟩, h13⟩, h14⟩, h15⟩, h16⟩, h17⟩, h18⟩, h19⟩, h20⟩, h21⟩, h22⟩, h23⟩ := h
    simp [Lexer.parse_token, h1, h2, h3, h4, h5, h6, h7, h8, h9, h10, h11, h12, h13,
      h14, h15, h16, h17, h18, h19, h20, h21, h22, h23]
  · intro fuel l h h2
    simp [Lexer.parse_token, h, h2]
  · intro fuel l h h2
    simp [Lexer.parse_token, h, h2]

/-- Witness for c5_illegal_byte: the byte `@` (64) panics; `&` followed by
`1` still yields the Illegal placeholder. -/
theorem c5_illegal_byte_witness :
    Lexer.parse_token 10 (Lexer.new [64]) = .panicked 64
  ∧ Lexer.parse_token 10 (Lexer.new [38, 49]) = .ok .illegal (Lexer.new [38, 49]).read_char := by
  constructor
  · exact c5_illegal_byte.1 10 (Lexer.new [64]) (by decide)
  · exact c5_illegal_byte.2.1 10 (Lexer.new [38, 49]) (by decide) (by decide)

/-- HashMap::get after HashMap::insert on the association-list model: the
inserted key reads back the new value, every other key is unchanged. -/
theorem mapGet_mapInsert (m : List (String × Value)) (k k' : String) (v : Value) :
    mapGet (mapInsert m k v) k' = if k = k' then some v else mapGet m k' := by
  induction m with
  | nil =>
      simp only [mapInsert, mapGet]
  | cons hd tl ih =>
      obtain ⟨k0, v0⟩ := hd
      by_cases h0 : k0 = k <;> by_cases h1 : k = k' <;>
        simp_all [mapGet, mapInsert]

/-- Inserting at a key that is already present preserves the key list. -/
theorem mapInsert_keys (m : List (String × Value)) (k : String) (v : Value)
    (h : (mapGet m k).isSome) :
    (mapInsert m k v).map Prod.fst = m.map Prod.fst := by
  induction m with
  | nil => simp [mapGet] at h
  | cons hd tl ih =>
      obtain ⟨k0, v0⟩ := hd
      by_cases h0 : k0 = k <;> simp_all [mapGet, mapInsert]

/-- Environment j is the first environment on the parent chain from i whose
local map binds k — the scope Environment::assign writes into. -/
inductive FirstBinder (s : Store) (k : String) : Nat → Nat → Prop
  | here (i : Nat) (e : Env) : s[i]? = some e → (mapGet e.values k).isSome →
      FirstBinder s k i i
  | there (i j : Nat) (e : Env) (p : Nat) : s[i]? = some e →
      mapGet e.values k = none → e.enclosing = some p →
      FirstBinder s k p j → FirstBinder s k i j

/-- A successful Environment::assign overwrote k in the first binding scope
on the chain and replaced only that environment in the store. -/
theorem assignFuel_some :
    ∀ fuel (s : Store) (i : Nat) (k : String) (v : Value) (s' : Store),
      Environment.assignFuel s fuel i k v = some s' →
      ∃ j e, FirstBinder s k i j ∧ s[j]? = some e ∧ (mapGet e.values k).isSome ∧
        s' = s.set j { e with values := mapInsert e.values k v } := by
  intro fuel
  induction fuel with
  | zero => intro s i k v s' h; simp [Environment.assignFuel] at h
  | succ n ih =>
      intro s i k v s' h
      simp only [Environment.assignFuel] at h
      split at h
      · exact absurd h (by simp)
      · rename_i e he
        split at h
        · rename_i v0 hv
          injection h with h
          exact ⟨i, e, .here i e he (by simp [hv]), he, by simp [hv], h.symm⟩
        · rename_i hv
          split at h
          · rename_i p hp
            split at h
            · obtain ⟨j, e', hfb, hje, hsome, hs⟩ := ih s p k v s' h
              exact ⟨j, e', .there i j e p he hv hp hfb, hje, hsome, hs⟩
            · exact absurd h (by simp)
          · exact absurd h (by simp)

/-- Environment::assign fails exactly when Environment::has answers false
(at the same chain fuel). -/
theorem assignFuel_none_iff :
    ∀ fuel (s : Store) (i : Nat) (k : String) (v : Value),
      Environment.assignFuel s fuel i k v = none ↔ Environment.hasFuel s fuel i k = false := by
  intro fuel
  induction fuel with
  | zero => intro s i k v; simp [Environment.assignFuel, Environment.hasFuel]
  | succ n ih =>
      intro s i k v
      simp only [Environment.assignFuel, Environment.hasFuel]
      cases hsi : s[i]? with
      | none => simp
      | some e =>
          cases hm : mapGet e.values k with
          | some v0 => simp [hm]
          | none =>
              cases hp : e.enclosing with
              | none => simp [hm, hp]
              | some p =>
                  cases hful : Environment.hasFuel s n p k with
                  | false => simp [hm, hp, hful, (ih s p k v).mpr hful]
                  | true =>
                      simp only [hm, hp, hful, if_true]
                      constructor
                      · intro hnone
                        exact absurd ((ih s p k v).mp hnone) (by simp [hful])
                      · intro hcontra
                        exact absurd hcontra (by simp)

/-- C7 [code_bug]: Environment::assign writes the evaluated value into the
first environment on the chain (walking outward) that already binds the
name — leaving every other environment, every other key, and the written
environment's key set unchanged, never creating a binding — and fails with
UndefinedVariable exactly when the name is bound nowhere on the chain;
evaluate checks the chain before evaluating the right-hand side and errs
UndefinedVariable on an unbound target, for every right-hand side. But when
the assigned value is a function, the evaluator's set_name call (whose
JsFunction implementation is an `unimplemented!()` panic) aborts before any
store happens: `let f = 0; f = function(){};` panics instead of assigning. -/
theorem c7_assign_first_scope :
    (∀ (s : Store) (i : Nat) (k : String) (v : Value) (s' : Store),
      Environment.assign s i k v = some s' →
      ∃ j e, FirstBinder s k i j ∧ s[j]? = some e ∧ (mapGet e.values k).isSome ∧
        s' = s.set j { e with values := mapInsert e.values k v } ∧
        (∀ m, m ≠ j → s'[m]? = s[m]?) ∧
        (∀ k', k ≠ k' → mapGet (mapInsert e.values k v) k' = mapGet e.values k') ∧
        (mapInsert e.values k v).map Prod.fst = e.values.map Prod.fst)
  ∧ (∀ (s : Store) (i : Nat) (k : String) (v : Value),
      Environment.assign s i k v = none ↔ Environment.has s i k = false)
  ∧ (∀ fuel (s : Store) (env : Nat) (k : String) (e : Expression),
      Environment.has s env k = false →
      Interpreter.evaluate (fuel + 1) (.assignement k e) env s = .err (.undefinedVariable k))
  ∧ Interpreter.run 20 progC7 0 [Environment.envNew] = .err .setNameUnimplemented := by
  refine ⟨?_, ?_, ?_, rfl⟩
  · intro s i k v s' h
    obtain ⟨j, e, hfb, hje, hsome, hs⟩ := assignFuel_some s.length s i k v s' h
    refine ⟨j, e, hfb, hje, hsome, hs, ?_, ?_, mapInsert_keys e.values k v hsome⟩
    · intro m hm
      rw [hs]
      exact List.getElem?_set_ne (Ne.symm hm)
    · intro k' hk
      rw [mapGet_mapInsert]
      exact if_neg hk
  · intro s i k v
    exact assignFuel_none_iff s.length s i k v
  · intro fuel s env k e h
    simp [Interpreter.evaluate, h]

/-- Witness for c7_assign_first_scope: a successful assignment through one
concrete store and a concrete unbound-name failure. -/
theorem c7_assign_first_scope_witness :
    (∃ j e, FirstBinder [{ enclosing := none, values := [("x", Value.null)] }] "x" 0 j ∧
      ([{ enclosing := none, values := [("x", Value.null)] }] : Store)[j]? = some e ∧
      (mapGet e.values "x").isSome ∧
      ([{ enclosing := none, values := [("x", Value.bool true)] }] : Store) =
        List.set [{ enclosing := none, values := [("x", Value.null)] }] j
          { e with values := mapInsert e.values "x" (Value.bool true) } ∧
      (∀ m, m ≠ j →
        ([{ enclosing := none, values := [("x", Value.bool true)] }] : Store)[m]? =
        ([{ enclosing := none, values := [("x", Value.null)] }] : Store)[m]?) ∧
      (∀ k', "x" ≠ k' →
        mapGet (mapInsert e.values "x" (Value.bool true)) k' = mapGet e.values k') ∧
      (mapInsert e.values "x" (Value.bool true)).map Prod.fst = e.values.map Prod.fst)
  ∧ Interpreter.evaluate 6 (.assignement "zz" (.literal .null)) 0 [Environment.envNew] =
      .err (.undefinedVariable "zz") :=
  ⟨c7_assign_first_scope.1 _ 0 "x" (Value.bool true) _ rfl,
   c7_assign_first_scope.2.2.1 5 _ 0 "zz" _ (by decide)⟩

/-- One environment operation applied to the store: define and assign as in
the source (a failed assign is the UndefinedVariable panic, which aborts the
run, so the store stays as it was), get and has are reads. -/
inductive EnvOp
  | defineOp (i : Nat) (k : String) (v : Value)
  | assignOp (i : Nat) (k : String) (v : Value)
  | getOp (i : Nat) (k : String)
  | hasOp (i : Nat) (k : String)

/-- Apply one environment operation to the store. -/
def applyEnvOp (s : Store) : EnvOp → Store
  | .defineOp i k v => Environment.define s i k v
  | .assignOp i k v => (Environment.assign s i k v).getD s
  | .getOp _ _ => s
  | .hasOp _ _ => s

/-- Name `k` is bound (to some value) in environment `i` of the store. -/
def boundIn (s : Store) (i : Nat) (k : String) : Prop :=
  ∃ e, s[i]? = some e ∧ (mapGet e.values k).isSome

/-- Environment::define never removes a binding from any environment. -/
theorem boundIn_define (s : Store) (j : Nat) (k : String) (v : Value) (i : Nat)
    (k' : String) (h : boundIn s i k') : boundIn (Environment.define s j k v) i k' := by
  obtain ⟨e, he, hsome⟩ := h
  unfold Environment.define
  split
  · rename_i e0 he0
    by_cases hij : i = j
    · subst hij
      rw [he] at he0
      injection he0 with he0
      subst he0
      refine ⟨{ e with values := mapInsert e.values k v }, ?_, ?_⟩
      · rw [List.getElem?_set_self', he]
        rfl
      · rw [mapGet_mapInsert]
        split <;> simp_all
    · exact ⟨e, by rw [List.getElem?_set_ne (fun hji => hij hji.symm)]; exact he, hsome⟩
  · exact ⟨e, he, hsome⟩

/-- Environment::assign never removes a binding from any environment. -/
theorem boundIn_assign (s : Store) (j : Nat) (k : String) (v : Value) (i : Nat)
    (k' : String) (h : boundIn s i k') :
    boundIn ((Environment.assign s j k v).getD s) i k' := by
  cases ha : Environment.assign s j k v with
  | none => simpa using h
  | some s' =>
      obtain ⟨jj, e, _, hje, hsome, hs⟩ := assignFuel_some s.length s j k v s' ha
      obtain ⟨ei, hei, hsomei⟩ := h
      subst hs
      by_cases hij : i = jj
      · subst hij
        rw [hei] at hje
        injection hje with hje
        subst hje
        refine ⟨{ ei with values := mapInsert ei.values k v }, ?_, ?_⟩
        · show (List.set s i _)[i]? = _
          rw [List.getElem?_set_self', hei]
          rfl
        · rw [mapGet_mapInsert]
          split <;> simp_all
      · refine ⟨ei, ?_, hsomei⟩
        show (List.set s jj _)[i]? = some ei
        rw [List.getElem?_set_ne (fun hji => hij hji.symm)]
        exact hei

/-- C10 [confirmed]: the bindings of any single environment only grow:
define inserts or overwrites, assign overwrites an existing binding (or
panics, leaving the store as it was), get and has read; no operation ever
removes a binding, so a name once bound in an environment stays bound
through every sequence of define/assign/get/has operations. -/
theorem c10_bindings_grow :
    ∀ (ops : List EnvOp) (s : Store) (i : Nat) (k : String),
      boundIn s i k → boundIn (ops.foldl applyEnvOp s) i k := by
  intro ops
  induction ops with
  | nil => intro s i k h; exact h
  | cons op rest ih =>
      intro s i k h
      refine ih _ i k ?_
      cases op with
      | defineOp j k0 v => exact boundIn_define s j k0 v i k h
      | assignOp j k0 v => exact boundIn_assign s j k0 v i k h
      | getOp _ _ => exact h
      | hasOp _ _ => exact h

/-- Witness for c10_bindings_grow: x stays bound through a define of another
name, an assign to x, a get and a has. -/
theorem c10_bindings_grow_witness :
    boundIn
      (([EnvOp.defineOp 0 "y" .null, EnvOp.assignOp 0 "x" (.bool true),
         EnvOp.getOp 0 "x", EnvOp.hasOp 0 "x"]).foldl applyEnvOp
        [{ enclosing := none, values := [("x", Value.null)] }]) 0 "x" :=
  c10_bindings_grow _ _ 0 "x" ⟨_, rfl, rfl⟩

/-- The whitespace loop leaves the input untouched. -/
theorem skipWhitespace_input :
    ∀ fuel (l l' : Lexer), Lexer.skipWhitespace fuel l = some l' → l'.input = l.input := by
  intro fuel
  induction fuel with
  | zero => intro l l' h; simp [Lexer.skipWhitespace] at h
  | succ n ih =>
      intro l l' h
      simp only [Lexer.skipWhitespace] at h
      split at h
      · exact (ih _ _ h).trans rfl
      · injection h with h; subst h; rfl

/-- The identifier loop leaves the input untouched. -/
theorem readIdentLoop_input :
    ∀ fuel (l l' : Lexer), Lexer.readIdentLoop fuel l = some l' → l'.input = l.input := by
  intro fuel
  induction fuel with
  | zero => intro l l' h; simp [Lexer.readIdentLoop] at h
  | succ n ih =>
      intro l l' h
      simp only [Lexer.readIdentLoop] at h
      split at h
      · exact (ih _ _ h).trans rfl
      · injection h with h; subst h; rfl

/-- The number loop leaves the input untouched. -/
theorem readNumberLoop_input :
    ∀ fuel (b : Bool) (l l' : Lexer),
      Lexer.readNumberLoop fuel b l = some l' → l'.input = l.input := by
  intro fuel
  induction fuel with
  | zero => intro b l l' h; simp [Lexer.readNumberLoop] at h
  | succ n ih =>
      intro b l l' h
      simp only [Lexer.readNumberLoop] at h
      split at h
      · exact (ih _ _ _ h).trans rfl
      · injection h with h; subst h; rfl

/-- The delimiter loop leaves the input untouched. -/
theorem readDelimLoop_input :
    ∀ (delim fuel : Nat) (l l' : Lexer),
      Lexer.readDelimLoop delim fuel l = some l' → l'.input = l.input := by
  intro delim fuel
  induction fuel with
  | zero => intro l l' h; simp [Lexer.readDelimLoop] at h
  | succ n ih =>
      intro l l' h
      simp only [Lexer.readDelimLoop] at h
      split at h
      · exact (ih _ _ h).trans rfl
      · injection h with h; subst h; rfl

/-- Lexer::read_ident leaves the input untouched. -/
theorem read_ident_input (fuel : Nat) (l : Lexer) (s : String) (l' : Lexer)
    (h : l.read_ident fuel = some (s, l')) : l'.input = l.input := by
  simp only [Lexer.read_ident, Option.map_eq_some'] at h
  obtain ⟨l0, h0, h1⟩ := h
  injection h1 with h1 h2
  subst h2
  exact readIdentLoop_input fuel l l0 h0

/-- Lexer::read_number leaves the input untouched. -/
theorem read_number_input (fuel : Nat) (l : Lexer) (s : String) (l' : Lexer)
    (h : l.read_number fuel = some (s, l')) : l'.input = l.input := by
  simp only [Lexer.read_number, Option.map_eq_some'] at h
  obtain ⟨l0, h0, h1⟩ := h
  injection h1 with h1 h2
  subst h2
  exact readNumberLoop_input fuel false l l0 h0

/-- Lexer::read_delimiter leaves the input untouched. -/
theorem read_delimiter_input (fuel : Nat) (l : Lexer) (delim : Nat) (s : String)
    (l' : Lexer) (h : l.read_delimiter fuel delim = some (s, l')) : l'.input = l.input := by
  simp only [Lexer.read_delimiter, Option.map_eq_some'] at h
  obtain ⟨l0, h0, h1⟩ := h
  injection h1 with h1 h2
  subst h2
  exact readDelimLoop_input delim fuel l l0 h0

/-- Lexer::parse_token leaves the input untouched. -/
theorem parse_token_input :
    ∀ fuel (l : Lexer) (t : Token) (l' : Lexer),
      Lexer.parse_token fuel l = .ok t l' → l'.input = l.input := by
  intro fuel l t l' h
  rw [Lexer.parse_token.eq_1] at h
  by_cases c1 : l.ch = 123
  · rw [if_pos c1] at h
    injection h with h1 h2
    subst h2
    rfl
  rw [if_neg c1] at h
  by_cases c2 : l.ch = 125
  · rw [if_pos c2] at h
    injection h with h1 h2
    subst h2
    rfl
  rw [if_neg c2] at h
  by_cases c3 : l.ch = 40
  · rw [if_pos c3] at h
    injection h with h1 h2
    subst h2
    rfl
  rw [if_neg c3] at h
  by_cases c4 : l.ch = 41
  · rw [if_pos c4] at h
    injection h with h1 h2
    subst h2
    rfl
  rw [if_neg c4] at h
  by_cases c5 : l.ch = 44
  · rw [if_pos c5] at h
    injection h with h1 h2
    subst h2
    rfl
  rw [if_neg c5] at h
  by_cases c6 : l.ch = 59
  · rw [if_pos c6] at h
    injection h with h1 h2
    subst h2
    rfl
  rw [if_neg c6] at h
  by_cases c7 : l.ch = 61
  · rw [if_pos c7] at h
    by_cases d7 : l.peek_char = 61
    · rw [if_pos d7] at h
      injection h with h1 h2
      subst h2
      rfl
    · rw [if_neg d7] at h
      injection h with h1 h2
      subst h2
      rfl
  rw [if_neg c7] at h
  by_cases c8 : l.ch = 43
  · rw [if_pos c8] at h
    injection h with h1 h2
    subst h2
    rfl
  rw [if_neg c8] at h
  by_cases c9 : l.ch = 45
  · rw [if_pos c9] at h
    injection h with h1 h2
    subst h2
    rfl
  rw [if_neg c9] at h
  by_cases c10 : l.ch = 42
  · rw [if_pos c10] at h
    injection h with h1 h2
    subst h2
    rfl
  rw [if_neg c10] at h
  by_cases c11 : l.ch = 47
  · rw [if_pos c11] at h
    injection h with h1 h2
    subst h2
    rfl
  rw [if_neg c11] at h
  by_cases c12 : l.ch = 60
  · rw [if_pos c12] at h
    by_cases d12 : l.peek_char = 61
    · rw [if_pos d12] at h
      injection h with h1 h2
      subst h2
      rfl
    · rw [if_neg d12] at h
      injection h with h1 h2
      subst h2
      rfl
  rw [if_neg c12] at h
  by_cases c13 : l.ch = 62
  · rw [if_pos c13] at h
    by_cases d13 : l.peek_char = 61
    · rw [if_pos d13] at h
      injection h with h1 h2
      subst h2
      rfl
    · rw [if_neg d13] at h
      injection h with h1 h2
      subst h2
      rfl
  rw [if_neg c13] at h
  by_cases c14 : l.ch = 38
  · rw [if_pos c14] at h
    by_cases d14 : l.peek_char = 38
    · rw [if_pos d14] at h
      injection h with h1 h2
      subst h2
      rfl
    · rw [if_neg d14] at h
      injection h with h1 h2
      subst h2
      rfl
  rw [if_neg c14] at h
  by_cases c15 : l.ch = 124
  · rw [if_pos c15] at h
    by_cases d15 : l.peek_char = 124
    · rw [if_pos d15] at h
      injection h with h1 h2
      subst h2
      rfl
    · rw [if_neg d15] at h
      injection h with h1 h2
      subst h2
      rfl
  rw [if_neg c15] at h
  by_cases c16 : l.ch = 33
  · rw [if_pos c16] at h
    by_cases d16 : l.peek_char = 61
    · rw [if_pos d16] at h
      injection h with h1 h2
      subst h2
      rfl
    · rw [if_neg d16] at h
      injection h with h1 h2
      subst h2
      rfl
  rw [if_neg c16] at h
  by_cases c17 : l.ch = 34
  · rw [if_pos c17] at h
    split at h
    · rename_i str l1 heq
      injection h with h1 h2
      subst h2
      exact read_delimiter_input fuel l.read_char 34 str l1 heq
    · exact LexRes.noConfusion h
  rw [if_neg c17] at h
  by_cases c18 : (isAsciiAlphabetic l.ch || l.ch = 95) = true
  · rw [if_pos c18] at h
    split at h
    · rename_i id l1 heq
      injection h with h1 h2
      subst h2
      exact read_ident_input fuel l id l1 heq
    · exact LexRes.noConfusion h
  rw [if_neg c18] at h
  by_cases c19 : (isAsciiDigit l.ch || l.ch = 46) = true
  · rw [if_pos c19] at h
    split at h
    · rename_i numStr l1 heq
      injection h with h1 h2
      subst h2
      exact read_number_input fuel l numStr l1 heq
    · exact LexRes.noConfusion h
  rw [if_neg c19] at h
  by_cases c20 : l.ch = 10
  · rw [if_pos c20] at h
    by_cases d20 : l.peek_char = 13
    · rw [if_pos d20] at h
      injection h with h1 h2
      subst h2
      rfl
    · rw [if_neg d20] at h
      injection h with h1 h2
      subst h2
      rfl
  rw [if_neg c20] at h
  by_cases c21 : l.ch = 0
  · rw [if_pos c21] at h
    injection h with h1 h2
    subst h2
    rfl
  rw [if_neg c21] at h
  exact LexRes.noConfusion h

/-- Lexer::next_token leaves the input untouched. -/
theorem next_token_input :
    ∀ fuel (l : Lexer) (t : Token) (l' : Lexer),
      Lexer.next_token fuel l = .ok t l' → l'.input = l.input := by
  intro fuel l t l' h
  simp only [Lexer.next_token] at h
  split at h
  · simp at h
  · rename_i l1 heq
    split at h
    · rename_i t2 l2 heq2
      injection h with h1 h2
      subst h2
      exact (parse_token_input fuel l1 t2 l2 heq2).trans (skipWhitespace_input fuel l l1 heq)
    · simp at h
    · simp at h

/-- C9 [confirmed]: peeking is side-effect-free: whenever next_token scans a
token, peek_token answers exactly that token while restoring the scanner
state completely (position, read position, current byte, current token and
the untouched input); match_token_and_consume on that token advances exactly
as next_token does and answers true, and on any other expected token leaves
the scanner state unchanged and answers false. -/
theorem c9_peek_is_pure :
    ∀ fuel (l : Lexer) (t : Token) (l' : Lexer), Lexer.next_token fuel l = .ok t l' →
      Lexer.peek_token fuel l = .ok t l
    ∧ Lexer.match_token_and_consume fuel l t = .ok true l'
    ∧ (∀ e : Token, e ≠ t → Lexer.match_token_and_consume fuel l e = .ok false l) := by
  intro fuel l t l' h
  have hi : l'.input = l.input := next_token_input fuel l t l' h
  have hpeek : Lexer.peek_token fuel l = .ok t l := by
    simp only [Lexer.peek_token, h]
    obtain ⟨p, rp, c, inp, ct⟩ := l
    obtain ⟨p', rp', c', inp', ct'⟩ := l'
    simp only at hi
    subst hi
    rfl
  refine ⟨hpeek, ?_, ?_⟩
  · simp only [Lexer.match_token_and_consume, hpeek]
    simp [h]
  · intro e he
    simp only [Lexer.match_token_and_consume, hpeek]
    rw [if_neg (fun hte : t = e => he hte.symm)]

/-- Witness for c9_peek_is_pure at the scanner over "let x". -/
theorem c9_peek_is_pure_witness :
    Lexer.peek_token 10 (Lexer.new (strBytes "let x")) = .ok .letT (Lexer.new (strBytes "let x"))
  ∧ Lexer.match_token_and_consume 10 (Lexer.new (strBytes "let x")) .letT =
      .ok true { position := 3, read_position := 4, ch := 32, input := strBytes "let x",
                 curr_token := .letT }
  ∧ Lexer.match_token_and_consume 10 (Lexer.new (strBytes "let x")) .semicolon =
      .ok false (Lexer.new (strBytes "let x")) := by
  have h : Lexer.next_token 10 (Lexer.new (strBytes "let x")) =
      .ok .letT { position := 3, read_position := 4, ch := 32, input := strBytes "let x",
                  curr_token := .letT } := rfl
  exact ⟨(c9_peek_is_pure 10 _ _ _ h).1, (c9_peek_is_pure 10 _ _ _ h).2.1,
    (c9_peek_is_pure 10 _ _ _ h).2.2 .semicolon (by decide)⟩

/-- Binding an out-of-fuel result stays out of fuel. -/
theorem Res.bindOut {α β : Type} {x : Res α} {f : α → Res β} (h : x = .out) :
    x.bind f = .out := by
  subst h
  rfl

/-- The while loop of the return-propagation test never terminates: the If
arm of execute discards the return signal produced inside the loop body, so
the loop re-runs on an unchanged store at every fuel. -/
theorem execute_loopWhile_out :
    ∀ (fuel env : Nat) (s : Store), Interpreter.execute fuel loopWhile env s = .out := by
  intro fuel
  induction fuel with
  | zero => intro env s; rfl
  | succ n ih =>
      intro env s
      rcases n with _ | m
      · rfl
      rcases m with _ | m2
      · rfl
      rcases m2 with _ | m3
      · rfl
      rcases m3 with _ | _ | _ | _ | j
      · rfl
      · rfl
      · rfl
      · rfl
      · exact ih env s

/-- The body of f never finishes: its first statement is the diverging
while loop. -/
theorem executeBlock_bodyF_out :
    ∀ (fuel env : Nat) (s : Store), Interpreter.executeBlock fuel bodyF env s = .out := by
  intro fuel env s
  rcases fuel with _ | n
  · rfl
  · exact Res.bindOut (execute_loopWhile_out n env s)

/-- The return-propagation test program diverges at every fuel. -/
theorem run_progC1_out :
    ∀ fuel, Interpreter.run fuel progC1 0 [Environment.envNew] = .out := by
  intro fuel
  rcases fuel with _ | n
  · rfl
  rcases n with _ | m
  · rfl
  rcases m with _ | m2
  · rfl
  rcases m2 with _ | m3
  · rfl
  rcases m3 with _ | m4
  · rfl
  rcases m4 with _ | m5
  · rfl
  exact Res.bindOut (Res.bindOut (executeBlock_bodyF_out m5 1 _))

/-- C1 [code_bug]: the claim (and the spec's critical correctness
requirement) says a Return nested inside Block/If/While terminates the
enclosing function call with the returned value, so calling
`function f(){ while(true){ if(true){ return 5; } } return 10; }` yields 5,
never an infinite loop. In the code, the If, While and Block arms of
Interpreter::execute discard the return signal of their sub-statements:
executing `if (true) { return 5; }` yields no signal and an unchanged store
(first conjunct), the enclosing while loop therefore never terminates
(second conjunct), and the whole program runs out of every amount of fuel —
it diverges — instead of binding a = 5 (third conjunct). -/
theorem c1_return_swallowed :
    (∀ (j env : Nat) (s : Store), Interpreter.execute (j + 5) innerIf env s = .ok (none, s))
  ∧ (∀ (fuel env : Nat) (s : Store), Interpreter.execute fuel loopWhile env s = .out)
  ∧ (∀ fuel, Interpreter.run fuel progC1 0 [Environment.envNew] = .out) :=
  ⟨fun _ _ _ => rfl, execute_loopWhile_out, run_progC1_out⟩

end JsIr
